import Mathlib

/-!
Verification of the InstaFit request gate (rate limiter and bot protector).

The definitions below are a shallow embedding of `src/rate_limiter.py` and of
the configuration constants of `src/config.py`:

* `Storage` models `RateLimiter.storage`, Python's
  `defaultdict(lambda: {'minute': deque(), 'hour': deque(), 'day': deque()})`.
  Any access through `cleanup_old_requests` / `record_request` inserts the
  default record, exactly as `defaultdict.__getitem__` does.
* Timestamps are integers (`time.time()` values); clocks are threaded as an
  explicit `now` argument wherever the Python reads `time.time()`.
* `is_rate_limited` returns `some (window, limit, current)` in place of the
  Python tuple `(True, window_type, limit, current_requests)` and `none` in
  place of `(False, None, None, None)`.
-/

/-- `RATE_LIMIT_CONFIG` of `config.py`: the per-window request ceilings, the
window durations in seconds, and the header-emission toggle. -/
structure RateLimitConfig where
  requests_per_minute : Nat
  requests_per_hour : Nat
  requests_per_day : Nat
  minute_window : Nat
  hour_window : Nat
  day_window : Nat
  enable_headers : Bool

/-- The shipped configuration values (`config.py`, `RATE_LIMIT_CONFIG`). -/
def RATE_LIMIT_CONFIG : RateLimitConfig :=
  { requests_per_minute := 3
    requests_per_hour := 15
    requests_per_day := 30
    minute_window := 60
    hour_window := 3600
    day_window := 86400
    enable_headers := true }

/-- The three window keys `'minute'`, `'hour'`, `'day'` iterated by
`is_rate_limited` and `record_request`. -/
inductive WindowType where
  | minute
  | hour
  | day
deriving DecidableEq, Repr

/-- Lookup `self.config[f"{window_type}_window"]`. -/
def RateLimitConfig.windowSeconds (cfg : RateLimitConfig) : WindowType → Nat
  | .minute => cfg.minute_window
  | .hour => cfg.hour_window
  | .day => cfg.day_window

/-- Lookup `self.config[f"requests_per_{window_type}"]`. -/
def RateLimitConfig.limitOf (cfg : RateLimitConfig) : WindowType → Nat
  | .minute => cfg.requests_per_minute
  | .hour => cfg.requests_per_hour
  | .day => cfg.requests_per_day

/-- One client's entry in `RateLimiter.storage`: the three deques of
request timestamps, oldest first. -/
structure ClientRecord where
  minute : List Int
  hour : List Int
  day : List Int
deriving DecidableEq, Repr

/-- The default record produced by the `defaultdict` factory:
three empty deques. -/
def ClientRecord.empty : ClientRecord := ⟨[], [], []⟩

/-- Read one window's deque. -/
def ClientRecord.get : ClientRecord → WindowType → List Int
  | r, .minute => r.minute
  | r, .hour => r.hour
  | r, .day => r.day

/-- `RateLimiter.storage`: a partial map from client identity to record;
`none` means the key is absent from the dict. -/
abbrev Storage := String → Option ClientRecord

/-- The storage of a freshly constructed `RateLimiter`. -/
def emptyStorage : Storage := fun _ => none

/-- The record `defaultdict.__getitem__` would yield for `ip` (without the
insertion side effect, which each operation models explicitly). -/
def Storage.getD (s : Storage) (ip : String) : ClientRecord :=
  (s ip).getD ClientRecord.empty

/-- Store a record under `ip` (dict entry creation or in-place mutation). -/
def Storage.insert (s : Storage) (ip : String) (r : ClientRecord) : Storage :=
  fun k => if k = ip then some r else s k

/-- The `while ... popleft()` loop of `_cleanup_old_requests`: drop entries
from the head while `current_time - entry > window_seconds`. -/
def cleanupList (now : Int) (w : Nat) (l : List Int) : List Int :=
  l.dropWhile (fun t => decide (now - t > (w : Int)))

/-- `RateLimiter._cleanup_old_requests(client_ip, window_type)` with the call
time `now` explicit. Accessing `self.storage[client_ip]` inserts the default
record when absent (`defaultdict`), so the entry exists afterwards. -/
def cleanup_old_requests (cfg : RateLimitConfig) (s : Storage) (ip : String)
    (wt : WindowType) (now : Int) : Storage :=
  let r := s.getD ip
  match wt with
  | .minute => s.insert ip { r with minute := cleanupList now cfg.minute_window r.minute }
  | .hour => s.insert ip { r with hour := cleanupList now cfg.hour_window r.hour }
  | .day => s.insert ip { r with day := cleanupList now cfg.day_window r.day }

/-- `RateLimiter.is_rate_limited(client_ip)`: for each window, in the order
minute, hour, day, prune then compare the count against the ceiling; the
first window at or above its ceiling is reported at once.  `some (w, limit,
current)` stands for the Python `(True, window_type, limit, current_requests)`
and `none` for `(False, None, None, None)`.  The (mutated) storage is
returned explicitly. -/
def is_rate_limited (cfg : RateLimitConfig) (s : Storage) (ip : String)
    (now : Int) : Option (WindowType × Nat × Nat) × Storage :=
  let s1 := cleanup_old_requests cfg s ip .minute now
  let cur1 := ((s1.getD ip).minute).length
  if cfg.requests_per_minute ≤ cur1 then (some (.minute, cfg.requests_per_minute, cur1), s1)
  else
    let s2 := cleanup_old_requests cfg s1 ip .hour now
    let cur2 := ((s2.getD ip).hour).length
    if cfg.requests_per_hour ≤ cur2 then (some (.hour, cfg.requests_per_hour, cur2), s2)
    else
      let s3 := cleanup_old_requests cfg s2 ip .day now
      let cur3 := ((s3.getD ip).day).length
      if cfg.requests_per_day ≤ cur3 then (some (.day, cfg.requests_per_day, cur3), s3)
      else (none, s3)

/-- `RateLimiter.record_request(client_ip)`: append `current_time` to all
three deques of the client. -/
def record_request (s : Storage) (ip : String) (now : Int) : Storage :=
  let r := s.getD ip
  s.insert ip { minute := r.minute ++ [now], hour := r.hour ++ [now], day := r.day ++ [now] }

/-- The dictionary returned by `get_remaining_requests`. -/
structure Remaining where
  minute : Int
  hour : Int
  day : Int
deriving DecidableEq, Repr

/-- `RateLimiter.get_remaining_requests(client_ip)`: prune all three windows,
then report `ceiling - len(deque)` for each (a plain Python subtraction,
with no clamp at zero). -/
def get_remaining_requests (cfg : RateLimitConfig) (s : Storage) (ip : String)
    (now : Int) : Remaining × Storage :=
  let s1 := cleanup_old_requests cfg s ip .minute now
  let s2 := cleanup_old_requests cfg s1 ip .hour now
  let s3 := cleanup_old_requests cfg s2 ip .day now
  (⟨(cfg.requests_per_minute : Int) - ((s3.getD ip).minute).length,
    (cfg.requests_per_hour : Int) - ((s3.getD ip).hour).length,
    (cfg.requests_per_day : Int) - ((s3.getD ip).day).length⟩, s3)

/-- `reset_rate_limit(client_ip)`: if the identity is a key of the storage
dict, delete it and return `True`; otherwise return `False`. -/
def reset_rate_limit (s : Storage) (ip : String) : Bool × Storage :=
  match s ip with
  | some _ => (true, fun k => if k = ip then none else s k)
  | none => (false, s)

/-- Python's substring test `needle in hay`, on character lists:
does `needle` occur as a contiguous run? -/
def charRunAt : List Char → List Char → Bool
  | [], _ => true
  | _ :: _, [] => false
  | a :: as, b :: bs => a == b && charRunAt as bs

/-- `needle in hay` for character lists: `needle` occurs contiguously
starting at some position. -/
def charSubstring (needle : List Char) : List Char → Bool
  | [] => needle.isEmpty
  | c :: rest => charRunAt needle (c :: rest) || charSubstring needle rest

/-- Python's `needle in hay` on strings. -/
def strContainsSub (hay needle : String) : Bool :=
  charSubstring needle.data hay.data

/-- Python's `str.lower()` (basic-latin case folding, as in the ASCII
user-agent and pattern strings this code compares). -/
def lowerString (s : String) : String :=
  ⟨s.data.map Char.toLower⟩

/-- Python's `str.strip()`: whitespace removed from both ends. -/
def stripString (s : String) : String :=
  ⟨((s.data.dropWhile Char.isWhitespace).reverse.dropWhile Char.isWhitespace).reverse⟩

/-- `BOT_PROTECTION_CONFIG` of `config.py`. -/
structure BotProtectionConfig where
  block_bot_user_agents : Bool
  require_user_agent : Bool
  block_known_bot_ips : Bool
  bot_user_agent_patterns : List String
  known_bot_ips : List String
  allowed_user_agents : List String

/-- The shipped bot-protection configuration (`config.py`). -/
def BOT_PROTECTION_CONFIG : BotProtectionConfig :=
  { block_bot_user_agents := true
    require_user_agent := true
    block_known_bot_ips := false
    bot_user_agent_patterns :=
      ["bot", "crawler", "spider", "scraper", "scraper", "crawler",
       "python", "curl", "wget", "http", "java", "perl", "ruby",
       "go-http-client", "okhttp", "apache-httpclient", "requests",
       "urllib", "mechanize", "scrapy", "selenium", "phantomjs",
       "headless", "chrome-lighthouse", "googlebot", "bingbot",
       "yandex", "baiduspider", "facebookexternalhit", "twitterbot",
       "linkedinbot", "whatsapp", "telegrambot", "slackbot",
       "discordbot", "redditbot", "tumblr", "instagram", "pinterest"]
    known_bot_ips := []
    allowed_user_agents := ["instafit-extension", "instafit-mobile"] }

/-- `BotProtector._get_user_agent`: `request.headers.get('User-Agent', '').lower()`.
The raw header is `none` when absent. -/
def get_user_agent (uaHeader : Option String) : String :=
  lowerString (uaHeader.getD (""))

/-- `BotProtector._is_bot_user_agent(user_agent)`: whitelist containment is
checked before the blacklist patterns; when `block_bot_user_agents` is off
the result is `False` without consulting either list.  `user_agent` is
already lower-cased by the caller. -/
def is_bot_user_agent (cfg : BotProtectionConfig) (user_agent : String) : Bool :=
  if !cfg.block_bot_user_agents then false
  else if cfg.allowed_user_agents.any (fun a => strContainsSub user_agent (lowerString a)) then false
  else cfg.bot_user_agent_patterns.any (fun p => strContainsSub user_agent (lowerString p))

/-- `BotProtector._is_known_bot_ip(client_ip)`. -/
def is_known_bot_ip (cfg : BotProtectionConfig) (ip : String) : Bool :=
  if !cfg.block_known_bot_ips then false
  else cfg.known_bot_ips.contains ip

/-- `BotProtector._has_required_headers()`: when `require_user_agent` is on,
the raw `User-Agent` header must be present and not whitespace-only. -/
def has_required_headers (cfg : BotProtectionConfig) (uaHeader : Option String) : Bool :=
  if !cfg.require_user_agent then true
  else
    match uaHeader with
    | none => false
    | some ua => !(stripString ua == "")

/-- `BotProtector.is_bot(client_ip)`: required headers, then user-agent
classification, then the known-bot-IP list; first hit decides.  Returns
the Python pair `(is_bot, reason)`. -/
def is_bot (cfg : BotProtectionConfig) (ip : String) (uaHeader : Option String) :
    Bool × Option String :=
  let user_agent := get_user_agent uaHeader
  if !has_required_headers cfg uaHeader then
    (true, some ("Missing required headers"))
  else if is_bot_user_agent cfg user_agent then
    (true, some ("Bot user agent detected: " ++ user_agent))
  else if is_known_bot_ip cfg ip then
    (true, some ("Known bot IP"))
  else (false, none)

/-- Outcome of one pass through the `rate_limit_and_protect` decorator:
the 403 bot rejection, the 429 rate rejection, or the downstream handler
running with quota figures attached. -/
inductive GateResponse where
  | accessDenied (error reason details : String)
  | rateLimitExceeded (limit_type : WindowType) (limit current retry_after : Nat)
  | handled (remaining : Remaining)
deriving DecidableEq, Repr

/-- `rate_limit_and_protect` (the decorator body, one request): bot check,
then rate-limit check, then `record_request`, then the remaining-quota reads
(`g.rate_limit_info` and, when headers are enabled, the second read used for
the response headers). -/
def rate_limit_and_protect (rcfg : RateLimitConfig) (bcfg : BotProtectionConfig)
    (s : Storage) (ip : String) (uaHeader : Option String) (now : Int) :
    GateResponse × Storage :=
  match is_bot bcfg ip uaHeader with
  | (true, reason) =>
      (.accessDenied ("Access denied") ("Bot detection") (reason.getD ("")), s)
  | (false, _) =>
      match is_rate_limited rcfg s ip now with
      | (some (wt, limit, current), s1) =>
          (.rateLimitExceeded wt limit current (rcfg.windowSeconds wt), s1)
      | (none, s1) =>
          let s2 := record_request s1 ip now
          let (rem1, s3) := get_remaining_requests rcfg s2 ip now
          if rcfg.enable_headers then
            let (rem2, s4) := get_remaining_requests rcfg s3 ip now
            (.handled rem2, s4)
          else (.handled rem1, s3)

/-- One admitted-or-denied request: `is_rate_limited` followed, on
admission, by `record_request` — the decorator's rate-limiting path. -/
def admit_and_record (cfg : RateLimitConfig) (s : Storage) (ip : String)
    (now : Int) : Option (WindowType × Nat × Nat) × Storage :=
  match is_rate_limited cfg s ip now with
  | (some d, s1) => (some d, s1)
  | (none, s1) => (none, record_request s1 ip now)

/-- Run a sequence of admit-then-record calls at the given times, collecting
each call's decision (`none` = allowed). -/
def runCalls (cfg : RateLimitConfig) (ip : String) :
    Storage → List Int → List (Option (WindowType × Nat × Nat)) × Storage
  | s, [] => ([], s)
  | s, t :: ts =>
    let p := admit_and_record cfg s ip t
    let q := runCalls cfg ip p.2 ts
    (p.1 :: q.1, q.2)

/-- The storage-mutating operations of the rate limiter, for stating
invariants preserved by every operation. -/
inductive Op where
  | admitRecord
  | recordOnly
  | queryRemaining
  | resetOp
deriving DecidableEq, Repr

/-- Apply one operation to the storage (keeping only the resulting state). -/
def applyOp (cfg : RateLimitConfig) (s : Storage) (ip : String) (now : Int) :
    Op → Storage
  | .admitRecord => (admit_and_record cfg s ip now).2
  | .recordOnly => record_request s ip now
  | .queryRemaining => (get_remaining_requests cfg s ip now).2
  | .resetOp => (reset_rate_limit s ip).2

/-- A timestamp sequence is monotonically non-decreasing. -/
def monoTimes (l : List Int) : Prop := List.Pairwise (· ≤ ·) l

/-- Every timestamp in the sequence is at most `tm`. -/
def timesLe (l : List Int) (tm : Int) : Prop := ∀ t ∈ l, t ≤ tm

/-- Invariant of one client record at observation bound `tm`: all three
sequences are non-decreasing and contain no timestamp later than `tm`. -/
def RecInv (r : ClientRecord) (tm : Int) : Prop :=
  (monoTimes r.minute ∧ timesLe r.minute tm) ∧
  (monoTimes r.hour ∧ timesLe r.hour tm) ∧
  (monoTimes r.day ∧ timesLe r.day tm)

/-- Invariant of the whole storage at observation bound `tm`. -/
def StInv (s : Storage) (tm : Int) : Prop := ∀ ip, RecInv (s.getD ip) tm

/-- Bot-protection configuration with the known-bot-IP stage switched on and
one listed address — used to exercise the interplay of the user-agent
whitelist with the IP blacklist. -/
def botCfgIpBlock : BotProtectionConfig :=
  { BOT_PROTECTION_CONFIG with block_known_bot_ips := true, known_bot_ips := ["1.2.3.4"] }

/-- The shipped configuration with the minute ceiling set to zero. -/
def zeroMinuteConfig : RateLimitConfig :=
  { RATE_LIMIT_CONFIG with requests_per_minute := 0 }

/-- Four direct `record_request` calls (no admission checks) for one
identity at time 0. -/
def fourRecordsStorage : Storage :=
  record_request (record_request (record_request
    (record_request emptyStorage ("1.2.3.4") 0) ("1.2.3.4") 0) ("1.2.3.4") 0) ("1.2.3.4") 0

/-- Three admitted-and-recorded requests for one identity at time 0 — the
minute window is exactly at its ceiling. -/
def threeRecordsStorage : Storage :=
  record_request (record_request
    (record_request emptyStorage ("a") 0) ("a") 0) ("a") 0

/-- One recorded request for identity `7.7.7.7` at time 5. -/
def oneRecordStorage : Storage :=
  record_request emptyStorage ("7.7.7.7") 5

@[simp] lemma Storage.getD_insert_self (s : Storage) (ip : String) (r : ClientRecord) :
    (s.insert ip r).getD ip = r := by
  simp [Storage.insert, Storage.getD]

lemma Storage.getD_insert_ne (s : Storage) (ip k : String) (r : ClientRecord)
    (h : k ≠ ip) : (s.insert ip r).getD k = s.getD k := by
  simp [Storage.insert, Storage.getD, h]

@[simp] lemma cleanup_minute_getD (cfg : RateLimitConfig) (s : Storage) (ip : String)
    (now : Int) :
    (cleanup_old_requests cfg s ip .minute now).getD ip =
      { s.getD ip with minute := cleanupList now cfg.minute_window (s.getD ip).minute } := by
  simp [cleanup_old_requests]

@[simp] lemma cleanup_hour_getD (cfg : RateLimitConfig) (s : Storage) (ip : String)
    (now : Int) :
    (cleanup_old_requests cfg s ip .hour now).getD ip =
      { s.getD ip with hour := cleanupList now cfg.hour_window (s.getD ip).hour } := by
  simp [cleanup_old_requests]

@[simp] lemma cleanup_day_getD (cfg : RateLimitConfig) (s : Storage) (ip : String)
    (now : Int) :
    (cleanup_old_requests cfg s ip .day now).getD ip =
      { s.getD ip with day := cleanupList now cfg.day_window (s.getD ip).day } := by
  simp [cleanup_old_requests]

lemma cleanup_getD_ne (cfg : RateLimitConfig) (s : Storage) (ip k : String)
    (wt : WindowType) (now : Int) (h : k ≠ ip) :
    (cleanup_old_requests cfg s ip wt now).getD k = s.getD k := by
  cases wt <;> simp [cleanup_old_requests, Storage.getD_insert_ne _ _ _ _ h]

@[simp] lemma record_getD_self (s : Storage) (ip : String) (now : Int) :
    (record_request s ip now).getD ip =
      ⟨(s.getD ip).minute ++ [now], (s.getD ip).hour ++ [now], (s.getD ip).day ++ [now]⟩ := by
  simp [record_request]

lemma record_getD_ne (s : Storage) (ip k : String) (now : Int) (h : k ≠ ip) :
    (record_request s ip now).getD k = s.getD k := by
  simp [record_request, Storage.getD_insert_ne _ _ _ _ h]

lemma cleanupList_idem (now : Int) (w : Nat) (l : List Int) :
    cleanupList now w (cleanupList now w l) = cleanupList now w l := by
  induction l with
  | nil => rfl
  | cons a t ih =>
    by_cases h : now - a > (w : Int)
    · simpa [cleanupList, List.dropWhile_cons, h] using ih
    · simp [cleanupList, List.dropWhile_cons, h]

lemma cleanupList_eq_self {now : Int} {w : Nat} {l : List Int}
    (h : ∀ t ∈ l, now - t ≤ (w : Int)) : cleanupList now w l = l := by
  cases l with
  | nil => rfl
  | cons a t =>
    have ha : ¬ now - a > (w : Int) := by
      have := h a (by simp)
      omega
    simp [cleanupList, List.dropWhile_cons, ha]

lemma cleanupList_sublist (now : Int) (w : Nat) (l : List Int) :
    List.Sublist (cleanupList now w l) l :=
  List.dropWhile_sublist _

lemma get_remaining_fst (cfg : RateLimitConfig) (s : Storage) (ip : String) (now : Int) :
    (get_remaining_requests cfg s ip now).1 =
      ⟨(cfg.requests_per_minute : Int) - (cleanupList now cfg.minute_window (s.getD ip).minute).length,
       (cfg.requests_per_hour : Int) - (cleanupList now cfg.hour_window (s.getD ip).hour).length,
       (cfg.requests_per_day : Int) - (cleanupList now cfg.day_window (s.getD ip).day).length⟩ := by
  simp [get_remaining_requests]

lemma get_remaining_snd_getD (cfg : RateLimitConfig) (s : Storage) (ip : String) (now : Int) :
    ((get_remaining_requests cfg s ip now).2).getD ip =
      ⟨cleanupList now cfg.minute_window (s.getD ip).minute,
       cleanupList now cfg.hour_window (s.getD ip).hour,
       cleanupList now cfg.day_window (s.getD ip).day⟩ := by
  simp [get_remaining_requests]

lemma remaining_after_admission (cfg : RateLimitConfig) (s : Storage) (ip : String)
    (now : Int) :
    (get_remaining_requests cfg (is_rate_limited cfg s ip now).2 ip now).1 =
      (get_remaining_requests cfg s ip now).1 := by
  rw [get_remaining_fst, get_remaining_fst]
  simp only [is_rate_limited]
  split_ifs <;> simp [cleanupList_idem]

lemma reset_fst (s : Storage) (ip : String) :
    (reset_rate_limit s ip).1 = (s ip).isSome := by
  rcases h : s ip with _ | r <;> simp [reset_rate_limit, h]

lemma cleanup_apply_self_isSome (cfg : RateLimitConfig) (s : Storage) (ip : String)
    (wt : WindowType) (now : Int) :
    ((cleanup_old_requests cfg s ip wt now) ip).isSome = true := by
  cases wt <;> simp [cleanup_old_requests, Storage.insert]

lemma get_remaining_apply_self_isSome (cfg : RateLimitConfig) (s : Storage) (ip : String)
    (now : Int) :
    (((get_remaining_requests cfg s ip now).2) ip).isSome = true := by
  simp only [get_remaining_requests]
  exact cleanup_apply_self_isSome cfg _ ip .day now

lemma is_rate_limited_apply_self_isSome (cfg : RateLimitConfig) (s : Storage) (ip : String)
    (now : Int) :
    (((is_rate_limited cfg s ip now).2) ip).isSome = true := by
  simp only [is_rate_limited]
  split_ifs <;> simp [cleanup_apply_self_isSome]

lemma timesLe_mono {l : List Int} {tm tm' : Int} (ht : timesLe l tm) (h : tm ≤ tm') :
    timesLe l tm' :=
  fun t htt => le_trans (ht t htt) h

lemma RecInv.monoBound {r : ClientRecord} {tm tm' : Int} (h : RecInv r tm) (hle : tm ≤ tm') :
    RecInv r tm' :=
  ⟨⟨h.1.1, timesLe_mono h.1.2 hle⟩, ⟨h.2.1.1, timesLe_mono h.2.1.2 hle⟩,
   ⟨h.2.2.1, timesLe_mono h.2.2.2 hle⟩⟩

lemma RecInv.empty (tm : Int) : RecInv ClientRecord.empty tm := by
  refine ⟨⟨?_, ?_⟩, ⟨?_, ?_⟩, ⟨?_, ?_⟩⟩ <;> simp [monoTimes, timesLe, ClientRecord.empty]

lemma StInv.boundRelax {s : Storage} {tm tm' : Int} (h : StInv s tm) (hle : tm ≤ tm') :
    StInv s tm' :=
  fun ip => (h ip).monoBound hle

lemma StInv.ofEmpty (tm : Int) : StInv emptyStorage tm :=
  fun _ => RecInv.empty tm

lemma monoTimes_prune {l : List Int} (hm : monoTimes l) (now : Int) (w : Nat) :
    monoTimes (cleanupList now w l) :=
  List.Pairwise.sublist (cleanupList_sublist now w l) hm

lemma timesLe_prune {l : List Int} {tm : Int} (ht : timesLe l tm) (now : Int) (w : Nat) :
    timesLe (cleanupList now w l) tm :=
  fun t htt => ht t ((cleanupList_sublist now w l).subset htt)

lemma StInv.cleanup (cfg : RateLimitConfig) (ip : String) (wt : WindowType) (now : Int)
    {s : Storage} {tm : Int} (h : StInv s tm) :
    StInv (cleanup_old_requests cfg s ip wt now) tm := by
  intro k
  by_cases hk : k = ip
  · subst hk
    obtain ⟨⟨a1, a2⟩, ⟨b1, b2⟩, ⟨c1, c2⟩⟩ := h k
    cases wt
    · rw [cleanup_minute_getD]
      exact ⟨⟨monoTimes_prune a1 now _, timesLe_prune a2 now _⟩, ⟨b1, b2⟩, ⟨c1, c2⟩⟩
    · rw [cleanup_hour_getD]
      exact ⟨⟨a1, a2⟩, ⟨monoTimes_prune b1 now _, timesLe_prune b2 now _⟩, ⟨c1, c2⟩⟩
    · rw [cleanup_day_getD]
      exact ⟨⟨a1, a2⟩, ⟨b1, b2⟩, ⟨monoTimes_prune c1 now _, timesLe_prune c2 now _⟩⟩
  · rw [cleanup_getD_ne cfg s ip k wt now hk]
    exact h k

lemma monoTimes_append_now {l : List Int} {tm now : Int}
    (hm : monoTimes l) (hl : timesLe l tm) (hle : tm ≤ now) :
    monoTimes (l ++ [now]) := by
  unfold monoTimes at *
  rw [List.pairwise_append]
  refine ⟨hm, by simp, ?_⟩
  intro a ha b hb
  simp at hb
  subst hb
  exact le_trans (hl a ha) hle

lemma timesLe_append_now {l : List Int} {tm now : Int}
    (hl : timesLe l tm) (hle : tm ≤ now) :
    timesLe (l ++ [now]) now := by
  intro t ht
  rcases List.mem_append.mp ht with h | h
  · exact le_trans (hl t h) hle
  · simp at h
    omega

lemma StInv.record (ip : String) (now : Int) {s : Storage} {tm : Int}
    (h : StInv s tm) (hle : tm ≤ now) :
    StInv (record_request s ip now) now := by
  intro k
  by_cases hk : k = ip
  · subst hk
    rw [record_getD_self]
    obtain ⟨⟨a1, a2⟩, ⟨b1, b2⟩, ⟨c1, c2⟩⟩ := h k
    exact ⟨⟨monoTimes_append_now a1 a2 hle, timesLe_append_now a2 hle⟩,
      ⟨monoTimes_append_now b1 b2 hle, timesLe_append_now b2 hle⟩,
      ⟨monoTimes_append_now c1 c2 hle, timesLe_append_now c2 hle⟩⟩
  · rw [record_getD_ne s ip k now hk]
    exact (h k).monoBound hle

lemma StInv.query (cfg : RateLimitConfig) (ip : String) (now : Int) {s : Storage}
    {tm : Int} (h : StInv s tm) :
    StInv (get_remaining_requests cfg s ip now).2 tm := by
  simp only [get_remaining_requests]
  exact StInv.cleanup cfg ip .day now
    (StInv.cleanup cfg ip .hour now (StInv.cleanup cfg ip .minute now h))

lemma StInv.admission (cfg : RateLimitConfig) (ip : String) (now : Int) {s : Storage}
    {tm : Int} (h : StInv s tm) :
    StInv (is_rate_limited cfg s ip now).2 tm := by
  simp only [is_rate_limited]
  split_ifs <;> dsimp <;>
    first
    | exact StInv.cleanup cfg ip .minute now h
    | exact StInv.cleanup cfg ip .hour now (StInv.cleanup cfg ip .minute now h)
    | exact StInv.cleanup cfg ip .day now
        (StInv.cleanup cfg ip .hour now (StInv.cleanup cfg ip .minute now h))

lemma StInv.adRecord (cfg : RateLimitConfig) (ip : String) (now : Int) {s : Storage}
    {tm : Int} (h : StInv s tm) (hle : tm ≤ now) :
    StInv (admit_and_record cfg s ip now).2 now := by
  rcases hres : is_rate_limited cfg s ip now with ⟨res, s1⟩
  have h1 : StInv s1 tm := by
    have := StInv.admission cfg ip now h
    rwa [hres] at this
  cases res with
  | none =>
    simp only [admit_and_record, hres]
    exact StInv.record ip now h1 hle
  | some d =>
    simp only [admit_and_record, hres]
    exact h1.boundRelax hle

lemma StInv.resetState (ip : String) {s : Storage} {tm : Int} (h : StInv s tm) :
    StInv (reset_rate_limit s ip).2 tm := by
  intro k
  rcases hres : s ip with _ | r
  · simp only [reset_rate_limit, hres]
    exact h k
  · simp only [reset_rate_limit, hres]
    by_cases hk : k = ip
    · subst hk
      simp [Storage.getD]
      exact RecInv.empty tm
    · have : (fun k => if k = ip then none else s k) k = s k := by simp [hk]
      unfold Storage.getD
      rw [this]
      exact h k

lemma cleanupList_in_window (now : Int) (w : Nat) :
    ∀ (l : List Int), monoTimes l → ∀ t ∈ cleanupList now w l, now - t ≤ (w : Int) := by
  intro l
  induction l with
  | nil => intro _ t ht; cases ht
  | cons a ttl ih =>
    intro hm t ht
    by_cases hp : now - a > (w : Int)
    · rw [show cleanupList now w (a :: ttl) = cleanupList now w ttl by
        simp [cleanupList, List.dropWhile_cons, hp]] at ht
      exact ih hm.of_cons t ht
    · rw [show cleanupList now w (a :: ttl) = a :: ttl by
        simp [cleanupList, List.dropWhile_cons, hp]] at ht
      rcases List.mem_cons.mp ht with h | h
      · subst h
        omega
      · have hrel : a ≤ t := List.rel_of_pairwise_cons hm h
        omega

lemma is_rate_limited_allowed_of (cfg : RateLimitConfig) (s : Storage) (ip : String)
    (now : Int) (l : List Int)
    (hst : s.getD ip = ⟨l, l, l⟩)
    (hm : l.length < cfg.requests_per_minute)
    (hh : l.length < cfg.requests_per_hour)
    (hd : l.length < cfg.requests_per_day)
    (hinm : ∀ t ∈ l, now - t ≤ (cfg.minute_window : Int))
    (hinh : ∀ t ∈ l, now - t ≤ (cfg.hour_window : Int))
    (hind : ∀ t ∈ l, now - t ≤ (cfg.day_window : Int)) :
    (is_rate_limited cfg s ip now).1 = none ∧
    ((is_rate_limited cfg s ip now).2).getD ip = ⟨l, l, l⟩ := by
  have hm' : ¬ (cfg.requests_per_minute ≤ l.length) := by omega
  have hh' : ¬ (cfg.requests_per_hour ≤ l.length) := by omega
  have hd' : ¬ (cfg.requests_per_day ≤ l.length) := by omega
  simp [is_rate_limited, hst, cleanupList_eq_self hinm, cleanupList_eq_self hinh,
    cleanupList_eq_self hind, hm', hh', hd']

lemma is_rate_limited_denied_of (cfg : RateLimitConfig) (s : Storage) (ip : String)
    (now : Int) (l : List Int)
    (hst : s.getD ip = ⟨l, l, l⟩)
    (hm : cfg.requests_per_minute ≤ l.length)
    (hinm : ∀ t ∈ l, now - t ≤ (cfg.minute_window : Int)) :
    (is_rate_limited cfg s ip now).1 = some (.minute, cfg.requests_per_minute, l.length) := by
  simp [is_rate_limited, hst, cleanupList_eq_self hinm, hm]

lemma admit_and_record_allowed (cfg : RateLimitConfig) (s : Storage) (ip : String)
    (now : Int) (l : List Int)
    (hst : s.getD ip = ⟨l, l, l⟩)
    (hm : l.length < cfg.requests_per_minute)
    (hh : l.length < cfg.requests_per_hour)
    (hd : l.length < cfg.requests_per_day)
    (hinm : ∀ t ∈ l, now - t ≤ (cfg.minute_window : Int))
    (hinh : ∀ t ∈ l, now - t ≤ (cfg.hour_window : Int))
    (hind : ∀ t ∈ l, now - t ≤ (cfg.day_window : Int)) :
    (admit_and_record cfg s ip now).1 = none ∧
    ((admit_and_record cfg s ip now).2).getD ip = ⟨l ++ [now], l ++ [now], l ++ [now]⟩ := by
  obtain ⟨h1, h2⟩ := is_rate_limited_allowed_of cfg s ip now l hst hm hh hd hinm hinh hind
  rcases hres : is_rate_limited cfg s ip now with ⟨res, s1⟩
  rw [hres] at h1 h2
  dsimp at h1 h2
  subst h1
  have hstep : admit_and_record cfg s ip now = (none, record_request s1 ip now) := by
    simp [admit_and_record, hres]
  rw [hstep]
  exact ⟨rfl, by rw [record_getD_self, h2]⟩

lemma admit_and_record_denied (cfg : RateLimitConfig) (s : Storage) (ip : String)
    (now : Int) (l : List Int)
    (hst : s.getD ip = ⟨l, l, l⟩)
    (hm : cfg.requests_per_minute ≤ l.length)
    (hinm : ∀ t ∈ l, now - t ≤ (cfg.minute_window : Int)) :
    (admit_and_record cfg s ip now).1 = some (.minute, cfg.requests_per_minute, l.length) := by
  have h1 := is_rate_limited_denied_of cfg s ip now l hst hm hinm
  rcases hres : is_rate_limited cfg s ip now with ⟨res, s1⟩
  rw [hres] at h1
  dsimp at h1
  subst h1
  simp [admit_and_record, hres]

lemma runCalls_minute_run (cfg : RateLimitConfig) (ip : String)
    (hmh : cfg.requests_per_minute ≤ cfg.requests_per_hour)
    (hmd : cfg.requests_per_minute ≤ cfg.requests_per_day)
    (hwh : cfg.minute_window ≤ cfg.hour_window)
    (hwd : cfg.minute_window ≤ cfg.day_window) :
    ∀ (ts : List Int) (s : Storage) (l : List Int),
      s.getD ip = ⟨l, l, l⟩ →
      l.length ≤ cfg.requests_per_minute →
      l.length + ts.length = cfg.requests_per_minute + 1 →
      (∀ u ∈ ts, ∀ t ∈ l, t ≤ u ∧ u - t ≤ (cfg.minute_window : Int)) →
      List.Pairwise (fun a b => a ≤ b ∧ b - a ≤ (cfg.minute_window : Int)) ts →
      (runCalls cfg ip s ts).1 =
        List.replicate (cfg.requests_per_minute - l.length) none ++
          [some (.minute, cfg.requests_per_minute, cfg.requests_per_minute)] := by
  intro ts
  induction ts with
  | nil =>
    intro s l hst hle hlen hu hp
    exfalso
    simp at hlen
    omega
  | cons t ts ih =>
    intro s l hst hle hlen hu hp
    have hul : ∀ t' ∈ l, t' ≤ t ∧ t - t' ≤ (cfg.minute_window : Int) := hu t (by simp)
    have hinm : ∀ t' ∈ l, t - t' ≤ (cfg.minute_window : Int) := fun t' h' => (hul t' h').2
    rcases Nat.lt_or_ge l.length cfg.requests_per_minute with hcase | hcase
    · have hcasth : (cfg.minute_window : Int) ≤ (cfg.hour_window : Int) := by exact_mod_cast hwh
      have hcastd : (cfg.minute_window : Int) ≤ (cfg.day_window : Int) := by exact_mod_cast hwd
      have hinh : ∀ t' ∈ l, t - t' ≤ (cfg.hour_window : Int) := by
        intro t' h'
        have := hinm t' h'
        omega
      have hind : ∀ t' ∈ l, t - t' ≤ (cfg.day_window : Int) := by
        intro t' h'
        have := hinm t' h'
        omega
      obtain ⟨ra, rs⟩ := admit_and_record_allowed cfg s ip t l hst hcase
        (by omega) (by omega) hinm hinh hind
      have hrun : (runCalls cfg ip s (t :: ts)).1 =
          (admit_and_record cfg s ip t).1 ::
            (runCalls cfg ip (admit_and_record cfg s ip t).2 ts).1 := rfl
      rw [hrun, ra]
      rw [ih (admit_and_record cfg s ip t).2 (l ++ [t]) rs (by simp; omega)
        (by simp; simp at hlen; omega) ?inwin ?tail]
      case inwin =>
        intro u hu' t' ht'
        rcases List.mem_append.mp ht' with h' | h'
        · exact hu u (by simp [hu']) t' h'
        · simp at h'
          subst h'
          exact List.rel_of_pairwise_cons hp hu'
      case tail => exact hp.of_cons
      have harith : cfg.requests_per_minute - l.length =
          (cfg.requests_per_minute - (l.length + 1)) + 1 := by omega
      rw [harith, List.replicate_succ]
      simp
    · have hlm : l.length = cfg.requests_per_minute := by omega
      have hts : ts = [] := by
        simp at hlen
        have : ts.length = 0 := by omega
        exact List.length_eq_zero.mp this
      subst hts
      have hden := admit_and_record_denied cfg s ip t l hst (by omega) hinm
      have hrun : (runCalls cfg ip s [t]).1 = [(admit_and_record cfg s ip t).1] := rfl
      rw [hrun, hden, hlm]
      simp [hlm]

/-- C1: starting from empty storage, a sequence of `ceiling + 1`
admit-then-record calls for one identity, at non-decreasing times all within
one minute window of each other, yields `Allowed` (`none`) for the first
`ceiling` calls and a denial naming the minute window, the ceiling, and a
current count equal to the ceiling for the last call — provided the minute
ceiling and window do not exceed the hour and day ones, as in the shipped
configuration (3/15/30, 60/3600/86400). -/
theorem minute_ceiling_run (cfg : RateLimitConfig) (ip : String) (ts : List Int)
    (hlen : ts.length = cfg.requests_per_minute + 1)
    (hmh : cfg.requests_per_minute ≤ cfg.requests_per_hour)
    (hmd : cfg.requests_per_minute ≤ cfg.requests_per_day)
    (hwh : cfg.minute_window ≤ cfg.hour_window)
    (hwd : cfg.minute_window ≤ cfg.day_window)
    (hp : List.Pairwise (fun a b => a ≤ b ∧ b - a ≤ (cfg.minute_window : Int)) ts) :
    (runCalls cfg ip emptyStorage ts).1 =
      List.replicate cfg.requests_per_minute none ++
        [some (.minute, cfg.requests_per_minute, cfg.requests_per_minute)] := by
  have h := runCalls_minute_run cfg ip hmh hmd hwh hwd ts emptyStorage []
    rfl (by simp) (by simpa using hlen) (by intro u hu t' ht'; cases ht') hp
  simpa using h

/-- C1 witness: the spec's end-to-end scenario — identity `9.9.9.9`, four
calls within one minute under the shipped 3/15/30 configuration: three
`Allowed`, then `Denied(minute, 3, 3)`. -/
theorem minute_ceiling_run_witness :
    ([(0 : Int), 0, 0, 0]).length = RATE_LIMIT_CONFIG.requests_per_minute + 1 ∧
    (runCalls RATE_LIMIT_CONFIG ("9.9.9.9") emptyStorage [0, 0, 0, 0]).1 =
      List.replicate 3 none ++ [some (.minute, 3, 3)] :=
  ⟨by decide,
   minute_ceiling_run RATE_LIMIT_CONFIG ("9.9.9.9") [0, 0, 0, 0]
     (by decide) (by decide) (by decide) (by decide) (by decide) (by decide)⟩

/-- C3 (amended): `get_remaining_requests` returns exactly `ceiling - current
pruned count` per window as a plain integer subtraction; the result is
non-negative whenever each window's pruned count is within its ceiling, but
the code does not clamp it at zero. -/
theorem remaining_quota_formula (cfg : RateLimitConfig) (s : Storage) (ip : String)
    (now : Int) :
    (get_remaining_requests cfg s ip now).1 =
      ⟨(cfg.requests_per_minute : Int) - (cleanupList now cfg.minute_window (s.getD ip).minute).length,
       (cfg.requests_per_hour : Int) - (cleanupList now cfg.hour_window (s.getD ip).hour).length,
       (cfg.requests_per_day : Int) - (cleanupList now cfg.day_window (s.getD ip).day).length⟩ ∧
    ((cleanupList now cfg.minute_window (s.getD ip).minute).length ≤ cfg.requests_per_minute →
     (cleanupList now cfg.hour_window (s.getD ip).hour).length ≤ cfg.requests_per_hour →
     (cleanupList now cfg.day_window (s.getD ip).day).length ≤ cfg.requests_per_day →
     0 ≤ (get_remaining_requests cfg s ip now).1.minute ∧
     0 ≤ (get_remaining_requests cfg s ip now).1.hour ∧
     0 ≤ (get_remaining_requests cfg s ip now).1.day) := by
  refine ⟨get_remaining_fst cfg s ip now, fun h1 h2 h3 => ?_⟩
  rw [get_remaining_fst]
  refine ⟨?_, ?_, ?_⟩ <;> simp <;> omega

/-- C3 counterexample: after four direct `record_request` calls (none of
them preceded by an admission check) the reported remaining minute quota is
`-1`, refuting the claim that the returned value is never negative. -/
theorem remaining_quota_counterexample :
    (get_remaining_requests RATE_LIMIT_CONFIG fourRecordsStorage ("1.2.3.4") 0).1.minute = -1 := by
  decide

/-- C3 witness: for three admitted-and-recorded requests the pruned counts
are within the ceilings and all three remaining figures are non-negative. -/
theorem remaining_quota_formula_witness :
    0 ≤ (get_remaining_requests RATE_LIMIT_CONFIG threeRecordsStorage ("a") 0).1.minute ∧
    0 ≤ (get_remaining_requests RATE_LIMIT_CONFIG threeRecordsStorage ("a") 0).1.hour ∧
    0 ≤ (get_remaining_requests RATE_LIMIT_CONFIG threeRecordsStorage ("a") 0).1.day :=
  (remaining_quota_formula RATE_LIMIT_CONFIG threeRecordsStorage ("a") 0).2
    (by decide) (by decide) (by decide)

/-- C4: a denied admission check never mutates the observable quota state —
`get_remaining_requests` evaluated at the same instant returns the same
figures on the post-denial storage as on the storage just before the call
(`is_rate_limited` never appends a timestamp; only `record_request` does). -/
theorem denied_admission_preserves_remaining (cfg : RateLimitConfig) (s : Storage)
    (ip : String) (now : Int)
    (_h : ((is_rate_limited cfg s ip now).1).isSome = true) :
    (get_remaining_requests cfg (is_rate_limited cfg s ip now).2 ip now).1 =
      (get_remaining_requests cfg s ip now).1 :=
  remaining_after_admission cfg s ip now

/-- C4 witness: a concrete denied call (three requests already recorded in
the minute window) leaves the remaining figures unchanged. -/
theorem denied_admission_preserves_remaining_witness :
    ((is_rate_limited RATE_LIMIT_CONFIG threeRecordsStorage ("a") 0).1).isSome = true ∧
    (get_remaining_requests RATE_LIMIT_CONFIG
        (is_rate_limited RATE_LIMIT_CONFIG threeRecordsStorage ("a") 0).2 ("a") 0).1 =
      (get_remaining_requests RATE_LIMIT_CONFIG threeRecordsStorage ("a") 0).1 :=
  ⟨by decide,
   denied_admission_preserves_remaining RATE_LIMIT_CONFIG threeRecordsStorage ("a") 0 (by decide)⟩

/-- C6: with any window ceiling configured to zero, `is_rate_limited` denies
every request for every identity, time, and prior state — including an
identity with no history — since `current_requests >= limit` holds at zero. -/
theorem zero_ceiling_denies (cfg : RateLimitConfig) (s : Storage) (ip : String)
    (now : Int)
    (h : cfg.requests_per_minute = 0 ∨ cfg.requests_per_hour = 0 ∨ cfg.requests_per_day = 0) :
    ((is_rate_limited cfg s ip now).1).isSome = true := by
  simp only [is_rate_limited]
  split_ifs with h1 h2 h3
  · rfl
  · rfl
  · rfl
  · exfalso
    rcases h with h | h | h <;> omega

/-- C6 witness: the shipped configuration with a zero minute ceiling denies
a never-seen identity. -/
theorem zero_ceiling_denies_witness :
    (zeroMinuteConfig.requests_per_minute = 0 ∨ zeroMinuteConfig.requests_per_hour = 0 ∨
      zeroMinuteConfig.requests_per_day = 0) ∧
    ((is_rate_limited zeroMinuteConfig emptyStorage ("9.9.9.9") 0).1).isSome = true :=
  ⟨Or.inl rfl, zero_ceiling_denies zeroMinuteConfig emptyStorage ("9.9.9.9") 0 (Or.inl rfl)⟩

/-- C7: pruning with any `now`, including one earlier than stored
timestamps, is total and removes only a prefix of entries each strictly
older than `now - window`; every entry at or after `now - window` — in
particular every entry from the future — is retained, and the stored
sequence is exactly the pruned remainder. -/
theorem backward_clock_pruning_safe (cfg : RateLimitConfig) (s : Storage) (ip : String)
    (wt : WindowType) (now : Int) :
    ((cleanup_old_requests cfg s ip wt now).getD ip).get wt =
      cleanupList now (cfg.windowSeconds wt) ((s.getD ip).get wt) ∧
    ((s.getD ip).get wt).takeWhile (fun t => decide (now - t > ((cfg.windowSeconds wt : Int)))) ++
      cleanupList now (cfg.windowSeconds wt) ((s.getD ip).get wt) = (s.getD ip).get wt ∧
    (∀ t ∈ ((s.getD ip).get wt).takeWhile
        (fun t => decide (now - t > ((cfg.windowSeconds wt : Int)))),
      now - t > ((cfg.windowSeconds wt : Int))) ∧
    (∀ t ∈ (s.getD ip).get wt, now ≤ t →
      t ∈ cleanupList now (cfg.windowSeconds wt) ((s.getD ip).get wt)) := by
  refine ⟨?_, ?_, ?_, ?_⟩
  · cases wt <;>
      simp [cleanup_old_requests, ClientRecord.get, RateLimitConfig.windowSeconds]
  · simp [cleanupList, List.takeWhile_append_dropWhile]
  · intro t ht
    exact of_decide_eq_true
      (List.mem_takeWhile_imp (p := fun u => decide (now - u > ((cfg.windowSeconds wt : Int)))) ht)
  · intro t ht hnow
    have hsplit := List.takeWhile_append_dropWhile
      (p := fun u => decide (now - u > ((cfg.windowSeconds wt : Int))))
      (l := (s.getD ip).get wt)
    rw [← hsplit] at ht
    rcases List.mem_append.mp ht with hmem | hmem
    · exfalso
      have hgt := of_decide_eq_true
        (List.mem_takeWhile_imp (p := fun u => decide (now - u > ((cfg.windowSeconds wt : Int)))) hmem)
      have hw : (0 : Int) ≤ (cfg.windowSeconds wt : Int) := Int.natCast_nonneg _
      omega
    · simpa [cleanupList] using hmem

/-- C9: `reset_rate_limit` returns whether a record existed; when one did,
the identity's entry is deleted and its subsequent remaining-quota query
reports the full configured ceiling for every window; resetting a
never-seen identity returns `false` and changes nothing. -/
theorem reset_semantics (cfg : RateLimitConfig) (s : Storage) (ip : String) (now : Int) :
    (reset_rate_limit s ip).1 = (s ip).isSome ∧
    ((s ip).isSome = true → ((reset_rate_limit s ip).2) ip = none) ∧
    ((s ip).isSome = true →
      (get_remaining_requests cfg (reset_rate_limit s ip).2 ip now).1 =
        ⟨(cfg.requests_per_minute : Int), (cfg.requests_per_hour : Int),
         (cfg.requests_per_day : Int)⟩) ∧
    (s ip = none → reset_rate_limit s ip = (false, s)) := by
  rcases h : s ip with _ | r
  · simp [reset_rate_limit, h]
  · refine ⟨by simp [reset_rate_limit, h], by simp [reset_rate_limit, h],
      fun _ => ?_, by simp [h]⟩
    rw [get_remaining_fst]
    have hres : ((reset_rate_limit s ip).2).getD ip = ClientRecord.empty := by
      simp [reset_rate_limit, h, Storage.getD]
    rw [hres]
    simp [ClientRecord.empty, cleanupList]

/-- C9 witness: resetting an identity with one recorded request returns
`true` and its remaining quota reads full again; the inner hypothesis is
discharged on the concrete storage. -/
theorem reset_semantics_witness :
    (reset_rate_limit oneRecordStorage ("7.7.7.7")).1 = true ∧
    (get_remaining_requests RATE_LIMIT_CONFIG
        (reset_rate_limit oneRecordStorage ("7.7.7.7")).2 ("7.7.7.7") 5).1 = ⟨3, 15, 30⟩ := by
  have h := reset_semantics RATE_LIMIT_CONFIG oneRecordStorage ("7.7.7.7") 5
  exact ⟨by rw [h.1]; decide, h.2.2.1 (by decide)⟩

/-- C10 (implicit defaultdict behaviour): a read-only query on a never-seen
identity creates its storage entry — after `get_remaining_requests` (or
`is_rate_limited`) the identity is a key of the dict, so a subsequent
`reset_rate_limit` returns `true`, whereas reset on the untouched storage
returns `false`. -/
theorem query_creates_state (cfg : RateLimitConfig) (s : Storage) (ip : String)
    (now : Int) (h : s ip = none) :
    (reset_rate_limit s ip).1 = false ∧
    (((get_remaining_requests cfg s ip now).2) ip).isSome = true ∧
    (reset_rate_limit (get_remaining_requests cfg s ip now).2 ip).1 = true ∧
    (((is_rate_limited cfg s ip now).2) ip).isSome = true ∧
    (reset_rate_limit (is_rate_limited cfg s ip now).2 ip).1 = true := by
  refine ⟨?_, get_remaining_apply_self_isSome cfg s ip now, ?_,
    is_rate_limited_apply_self_isSome cfg s ip now, ?_⟩
  · rw [reset_fst, h]
    rfl
  · rw [reset_fst, get_remaining_apply_self_isSome cfg s ip now]
  · rw [reset_fst, is_rate_limited_apply_self_isSome cfg s ip now]

/-- C2 (amended): a user-agent that passes the required-header check and
contains a whitelist substring is never rejected by the user-agent stage —
the whitelist short-circuits the blacklist patterns — but the known-bot-IP
check still runs afterwards, so the classification is `allowed` only when
that check also comes back clean. -/
theorem whitelist_short_circuits_blacklist (cfg : BotProtectionConfig) (ip : String)
    (uaHeader : Option String)
    (hreq : has_required_headers cfg uaHeader = true)
    (hwl : cfg.allowed_user_agents.any
      (fun a => strContainsSub (get_user_agent uaHeader) (lowerString a)) = true)
    (hip : is_known_bot_ip cfg ip = false) :
    is_bot cfg ip uaHeader = (false, none) := by
  have hua : is_bot_user_agent cfg (get_user_agent uaHeader) = false := by
    unfold is_bot_user_agent
    cases hb : cfg.block_bot_user_agents <;> simp [hb, hwl]
  simp [is_bot, hreq, hua, hip]

/-- C2 counterexample: with IP blacklisting enabled and the client address
listed, a user-agent containing the whitelist substring `instafit-extension`
still passes the header check and matches the whitelist, yet `is_bot`
rejects the request as a known bot IP — the whitelist does not short-circuit
the IP check. -/
theorem whitelist_short_circuit_counterexample :
    has_required_headers botCfgIpBlock (some ("InstaFit-Extension/2.0")) = true ∧
    botCfgIpBlock.allowed_user_agents.any
      (fun a => strContainsSub (get_user_agent (some ("InstaFit-Extension/2.0")))
        (lowerString a)) = true ∧
    is_bot botCfgIpBlock ("1.2.3.4") (some ("InstaFit-Extension/2.0")) =
      (true, some ("Known bot IP")) :=
  ⟨by decide, by decide, by decide⟩

/-- C2 witness: a user-agent containing both the whitelisted substring
`instafit-extension` and the blacklisted substring `curl` is allowed under
the shipped configuration (whose IP stage is clean). -/
theorem whitelist_short_circuits_blacklist_witness :
    has_required_headers BOT_PROTECTION_CONFIG (some ("InstaFit-Extension/2.0 curl")) = true ∧
    BOT_PROTECTION_CONFIG.allowed_user_agents.any
      (fun a => strContainsSub (get_user_agent (some ("InstaFit-Extension/2.0 curl")))
        (lowerString a)) = true ∧
    is_known_bot_ip BOT_PROTECTION_CONFIG ("1.2.3.4") = false ∧
    is_bot BOT_PROTECTION_CONFIG ("1.2.3.4") (some ("InstaFit-Extension/2.0 curl")) =
      (false, none) :=
  ⟨by decide, by decide, by decide,
   whitelist_short_circuits_blacklist BOT_PROTECTION_CONFIG ("1.2.3.4")
     (some ("InstaFit-Extension/2.0 curl")) (by decide) (by decide) (by decide)⟩

/-- C8: when the bot classifier rejects a request, the gate responds with
the fixed access-denied outcome carrying the classification reason and
returns the rate limiter's storage untouched — no identity's timestamps are
pruned, appended, or recorded. -/
theorem bot_rejection_preserves_state (rcfg : RateLimitConfig) (bcfg : BotProtectionConfig)
    (s : Storage) (ip : String) (uaHeader : Option String) (now : Int)
    (h : (is_bot bcfg ip uaHeader).1 = true) :
    rate_limit_and_protect rcfg bcfg s ip uaHeader now =
      (.accessDenied ("Access denied") ("Bot detection")
        (((is_bot bcfg ip uaHeader).2).getD ("")), s) := by
  rcases hib : is_bot bcfg ip uaHeader with ⟨b, r⟩
  rw [hib] at h
  dsimp at h
  subst h
  simp [rate_limit_and_protect, hib]

/-- C8 witness: a concrete rejected bot request (`curl` user-agent) on a
non-empty storage leaves the storage exactly as it was. -/
theorem bot_rejection_preserves_state_witness :
    (is_bot BOT_PROTECTION_CONFIG ("7.7.7.7") (some ("curl/7.68.0"))).1 = true ∧
    rate_limit_and_protect RATE_LIMIT_CONFIG BOT_PROTECTION_CONFIG oneRecordStorage
        ("7.7.7.7") (some ("curl/7.68.0")) 6 =
      (.accessDenied ("Access denied") ("Bot detection")
        (((is_bot BOT_PROTECTION_CONFIG ("7.7.7.7") (some ("curl/7.68.0"))).2).getD ("")),
       oneRecordStorage) :=
  ⟨by decide,
   bot_rejection_preserves_state RATE_LIMIT_CONFIG BOT_PROTECTION_CONFIG oneRecordStorage
     ("7.7.7.7") (some ("curl/7.68.0")) 6 (by decide)⟩

/-- C10 witness: concrete instance on the empty storage. -/
theorem query_creates_state_witness :
    emptyStorage ("x") = none ∧
    ((reset_rate_limit emptyStorage ("x")).1 = false ∧
     (((get_remaining_requests RATE_LIMIT_CONFIG emptyStorage ("x") 0).2) ("x")).isSome = true ∧
     (reset_rate_limit (get_remaining_requests RATE_LIMIT_CONFIG emptyStorage ("x") 0).2 ("x")).1 = true ∧
     (((is_rate_limited RATE_LIMIT_CONFIG emptyStorage ("x") 0).2) ("x")).isSome = true ∧
     (reset_rate_limit (is_rate_limited RATE_LIMIT_CONFIG emptyStorage ("x") 0).2 ("x")).1 = true) :=
  ⟨rfl, query_creates_state RATE_LIMIT_CONFIG emptyStorage ("x") 0 rfl⟩

/-- C5: under non-decreasing call times, every operation preserves the
storage invariant that each client's three timestamp sequences are
monotonically non-decreasing (timestamps are only appended at the tail)
with no entry later than the latest time supplied; and on a monotone
sequence pruning is exactly a prefix trim, after which every retained
timestamp lies within the window's duration of `now`. -/
theorem storage_invariant_preserved (cfg : RateLimitConfig) (s : Storage) (ip : String)
    (tm now : Int) (op : Op)
    (hInv : StInv s tm) (hle : tm ≤ now) :
    StInv (applyOp cfg s ip now op) now ∧
    (∀ (l : List Int) (w : Nat), monoTimes l →
      (l.takeWhile (fun u => decide (now - u > (w : Int))) ++ cleanupList now w l = l ∧
       ∀ t ∈ cleanupList now w l, now - t ≤ (w : Int))) := by
  constructor
  · cases op
    · exact StInv.adRecord cfg ip now hInv hle
    · exact StInv.record ip now hInv hle
    · exact (StInv.query cfg ip now hInv).boundRelax hle
    · exact (StInv.resetState ip hInv).boundRelax hle
  · intro l w hm
    exact ⟨by simp [cleanupList, List.takeWhile_append_dropWhile],
      cleanupList_in_window now w l hm⟩

/-- C5 witness: the invariant holds of the empty storage at time 0 and is
preserved by a record operation at time 1. -/
theorem storage_invariant_preserved_witness :
    StInv emptyStorage 0 ∧ (0 : Int) ≤ 1 ∧
    (StInv (applyOp RATE_LIMIT_CONFIG emptyStorage ("a") 1 .recordOnly) 1 ∧
     (∀ (l : List Int) (w : Nat), monoTimes l →
       (l.takeWhile (fun u => decide ((1 : Int) - u > (w : Int))) ++ cleanupList 1 w l = l ∧
        ∀ t ∈ cleanupList 1 w l, (1 : Int) - t ≤ (w : Int)))) :=
  ⟨StInv.ofEmpty 0, by decide,
   storage_invariant_preserved RATE_LIMIT_CONFIG emptyStorage ("a") 0 1 .recordOnly
     (StInv.ofEmpty 0) (by decide)⟩
